import Mathlib

/-!
Verification of the InitVerify installer utility.

Shallow embedding of `src/app/logic.py` (class `CommandProcessor`) and of the
bundled catalog `src/app/installer_garbage.py`.  Python dictionaries are
modelled as association lists (preserving insertion order), the shopping cart
(a Python `set` of strings) as a `Finset String`, and every UI emission
(`log_emitter(message, type)`) as a pair of strings collected in an output
list.  Wall-clock times handed back by `time.time()` are modelled as rational
numbers supplied by the environment, and network / subprocess interactions are
modelled as explicit oracles passed to the embedded functions.
-/

/-- Embeds one value of the nested catalog dictionary: an application entry
carrying the two per-architecture URLs (`url_64` / `url_32` keys of
`installer_garbage.py`).  Either key may be absent in general. -/
structure AppEntry where
  url_64 : Option String
  url_32 : Option String
deriving DecidableEq, Repr

/-- Embeds `CommandProcessor.apps_database`: a Python dict
`category name → (app name → entry)`, as an insertion-ordered association
list. -/
abbrev Database : Type := List (String × List (String × AppEntry))

/-- Embeds one emitted log line: `(message, message_type)` as handed to
`log_emitter`. -/
abbrev Log : Type := List (String × String)

/-- Embeds Python `str.lower()` as a structural map over the character list
(the byte-position based `String.toLower` of the runtime computes the same
string but does not reduce well inside the kernel). -/
def pyLower (s : String) : String :=
  String.mk (s.toList.map Char.toLower)

/-- Embeds Python `str.split()` with no argument (src/app/logic.py:151):
split on whitespace runs, discarding empty pieces. -/
def pySplitWhitespace (s : String) : List String :=
  ((s.toList.splitOnP (fun c => c.isWhitespace)).map (fun cs => String.mk cs)).filter (· ≠ "")

/-- Helper for `pySplitOn`: scan left to right, cutting at each
non-overlapping occurrence of `sep`. -/
def splitOnAux (sep : List Char) : List Char → List Char → List (List Char)
  | [], acc => [acc.reverse]
  | c :: rest, acc =>
    if sep.isPrefixOf (c :: rest) then
      acc.reverse :: splitOnAux sep (rest.drop (sep.length - 1)) []
    else
      splitOnAux sep rest (c :: acc)
termination_by l _ => l.length
decreasing_by
  all_goals simp only [List.length_cons, List.length_drop]
  all_goals omega

/-- Embeds Python `str.split(sep)` for a non-empty separator string. -/
def pySplitOn (s sep : String) : List String :=
  (splitOnAux sep.toList s.toList []).map (fun cs => String.mk cs)

/-- Embeds Python `str.endswith(suffix)` as a structural suffix test. -/
def pyEndsWith (s suffix : String) : Bool :=
  List.isSuffixOf suffix.toList s.toList

/-- Embeds `CommandProcessor._find_app_url` (src/app/logic.py:132-140): scan
the categories in order and return the stored value for the first category
containing the key, else `None`.  Note the function returns the whole entry
dictionary, exactly as `category[app_name_to_find]` does. -/
def findAppUrl (db : Database) (name : String) : Option AppEntry :=
  match db with
  | [] => none
  | (_, category) :: rest =>
    match category.lookup name with
    | some e => some e
    | none => findAppUrl rest name

/-- Embeds `CommandProcessor.show_cart` (src/app/logic.py:227-235). -/
def showCart (cart : Finset String) : Log :=
  if cart = ∅ then
    [("Your shopping cart is currently empty.", "info")]
  else
    ("Current items in cart:", "info") ::
      (cart.sort (· ≤ ·)).map (fun n => ("  - " ++ n, "info"))
      ++ [("\nUse \x27install\x27 to begin, \x27remove &lt;app_name&gt;\x27 to remove an item, or \x27remove-all\x27 to clear the cart.", "info")]

/-- Embeds the `for app_name in app_names` loop of
`CommandProcessor.add_to_cart` (src/app/logic.py:216-224): names found in the
catalog are inserted (with a warning when already present), unknown names get
a per-name error, and the loop always continues with the remaining names. -/
def addLoop (db : Database) : Finset String → List String → Finset String × Log
  | cart, [] => (cart, [])
  | cart, n :: rest =>
    if (findAppUrl db n).isSome then
      if n ∈ cart then
        ((addLoop db cart rest).1,
          ("\x27" ++ n ++ "\x27 is already in the cart.", "warning") :: (addLoop db cart rest).2)
      else
        ((addLoop db (insert n cart) rest).1,
          ("\x27" ++ n ++ "\x27 has been added to the cart.", "success") :: (addLoop db (insert n cart) rest).2)
    else
      ((addLoop db cart rest).1,
        ("Error: Application \x27" ++ n ++ "\x27 was not found.", "error") :: (addLoop db cart rest).2)

/-- Embeds `CommandProcessor.add_to_cart` (src/app/logic.py:211-225),
including the empty-argument error and the trailing `show_cart` call. -/
def addToCart (db : Database) (cart : Finset String) (names : List String) :
    Finset String × Log :=
  if names = [] then
    (cart, [("Error: Please specify an app name. Example: add steam vscode", "error")])
  else
    ((addLoop db cart names).1, (addLoop db cart names).2 ++ showCart (addLoop db cart names).1)

/-- Embeds the `for app_name in app_names` loop of
`CommandProcessor.remove_from_cart` (src/app/logic.py:242-247). -/
def removeLoop : Finset String → List String → Finset String × Log
  | cart, [] => (cart, [])
  | cart, n :: rest =>
    if n ∈ cart then
      ((removeLoop (cart.erase n) rest).1,
        ("\x27" ++ n ++ "\x27 has been removed from the cart.", "success") :: (removeLoop (cart.erase n) rest).2)
    else
      ((removeLoop cart rest).1,
        ("Error: \x27" ++ n ++ "\x27 is not in the cart.", "error") :: (removeLoop cart rest).2)

/-- Embeds `CommandProcessor.remove_from_cart` (src/app/logic.py:237-248). -/
def removeFromCart (cart : Finset String) (names : List String) :
    Finset String × Log :=
  if names = [] then
    (cart, [("Error: Please specify the app name to remove.", "error")])
  else
    ((removeLoop cart names).1, (removeLoop cart names).2 ++ showCart (removeLoop cart names).1)

/-- Embeds `CommandProcessor.clear_cart` (src/app/logic.py:250-256). -/
def clearCart (cart : Finset String) : Finset String × Log :=
  if cart = ∅ then
    (cart, [("The cart is already empty.", "warning")])
  else
    (∅, [("All items have been removed from the cart.", "success")])

/-- Embeds the dispatcher state of `CommandProcessor`: the shopping cart and
the `awaiting_confirmation` flag. -/
structure PState where
  cart : Finset String
  awaiting_confirmation : Bool
deriving DecidableEq

/-- Embeds `CommandProcessor.initiate_installation` (src/app/logic.py:258-270).
Returns the successor state and the emitted log. -/
def initiateInstallation (cart : Finset String) : PState × Log :=
  if cart = ∅ then
    (⟨cart, false⟩, [("Cart is empty. Nothing to install.", "warning")])
  else
    (⟨cart, true⟩,
      ("The following applications will be installed:", "info") ::
        (cart.sort (· ≤ ·)).map (fun n => ("  - " ++ n, "info"))
        ++ [("\nDo you wish to continue? (y/n)", "user")])

/-- Embeds `CommandProcessor.handle_install_confirmation`
(src/app/logic.py:272-285).  The third component records whether the
installation pipeline thread was started. -/
def handleInstallConfirmation (cart : Finset String) (response : String) :
    PState × Log × Bool :=
  if pyLower response = "y" ∨ pyLower response = "yes" then
    (⟨cart, false⟩,
      [("Confirmation received. Starting download and installation process...", "success")],
      true)
  else
    (⟨cart, false⟩,
      ("Installation cancelled. Your cart remains unchanged.", "warning") :: showCart cart,
      false)

/-- Embeds the cell built for one category inside
`CommandProcessor.show_available_apps` (src/app/logic.py:195-201). -/
def categoryCell (name : String) (apps : List (String × AppEntry)) : String :=
  "<td style=\x27vertical-align:top; padding-right: 20px; width:33%;\x27>"
    ++ "<b>--- " ++ name ++ " ---</b><br/>"
    ++ String.join (apps.map (fun a => "- " ++ a.1 ++ "<br/>"))
    ++ "</td>"

/-- Embeds the HTML table built by `CommandProcessor.show_available_apps`
(src/app/logic.py:187-207).  The Python `column_count` always equals the
enumeration index `i` at the top of the loop body. -/
def appsTable (db : Database) : String :=
  "<table style=\x27width:100%\x27>"
    ++ String.join (db.enum.map (fun ic =>
        (if ic.1 % 3 = 0 then "<tr>" else "")
          ++ categoryCell ic.2.1 ic.2.2
          ++ (if (ic.1 + 1) % 3 = 0 ∨ ic.1 = db.length - 1 then "</tr>" else "")))
    ++ "</table>"

/-- Embeds `CommandProcessor.show_available_apps` (src/app/logic.py:176-209). -/
def showAvailableApps (db : Database) : Log :=
  ("Available applications to install:", "info") ::
    (if db = [] then
      [("No application lists available.", "warning")]
    else
      [(appsTable db, "info"),
       ("\nUse the \x27add &lt;app_name1&gt; [app_name2] ...\x27 command to add items.", "info")])

/-- Embeds the help text of `CommandProcessor.show_help`
(src/app/logic.py:415-429). -/
def helpText : String :=
  "Available commands:\n"
    ++ "  - show-apps                : Lists all available applications.\n"
    ++ "  - add <app> [app2] ...     : Adds one or more apps to the cart.\n"
    ++ "  - remove <app> [app2]...   : Removes apps from the cart.\n"
    ++ "  - remove-all               : Removes all apps from the cart.\n"
    ++ "  - cart                     : Shows the current contents of the cart.\n"
    ++ "  - install                  : Starts the installation for items in the cart.\n"
    ++ "  - clear                    : Clears the output screen.\n"
    ++ "  - restart                  : Restarts the application.\n"
    ++ "  - help                     : Displays this help message."

/-- Embeds `CommandProcessor.process_command` (src/app/logic.py:142-174): when
`awaiting_confirmation` is set the raw text is consumed by
`handle_install_confirmation`; otherwise the text is whitespace-split, the
first token lowercased and looked up in the command map.  The third component
records whether the installation pipeline thread was started. -/
def processCommand (db : Database) (s : PState) (txt : String) :
    PState × Log × Bool :=
  if s.awaiting_confirmation then
    handleInstallConfirmation s.cart txt
  else
    let parts := pySplitWhitespace txt
    let command := pyLower (parts.headD "")
    let args := parts.tail
    if command = "show-apps" then (s, showAvailableApps db, false)
    else if command = "add" then
      ((⟨(addToCart db s.cart args).1, false⟩ : PState), (addToCart db s.cart args).2, false)
    else if command = "cart" then (s, showCart s.cart, false)
    else if command = "remove" then
      ((⟨(removeFromCart s.cart args).1, false⟩ : PState), (removeFromCart s.cart args).2, false)
    else if command = "remove-all" then
      ((⟨(clearCart s.cart).1, false⟩ : PState), (clearCart s.cart).2, false)
    else if command = "install" then
      ((initiateInstallation s.cart).1, (initiateInstallation s.cart).2, false)
    else if command = "help" then (s, [(helpText, "info")], false)
    else if command = "clear" then (s, [("clear_screen", "system_command")], false)
    else if command = "restart" then (s, [("restart_app", "system_command")], false)
    else
      (s, [("Error: Command \x27" ++ command ++ "\x27 not recognized. Type \x27help\x27 for assistance.", "error")], false)

/-- Embeds the per-app success condition of one iteration of
`CommandProcessor.run_full_installation` (src/app/logic.py:296-316): the URL
lookup succeeded, the download (oracle `dl`) produced a file path, and the
installer run (oracle `ins`) reported success. -/
def installOK (db : Database) (dl : AppEntry → String → Option String)
    (ins : String → Bool) (a : String) : Bool :=
  match findAppUrl db a with
  | none => false
  | some e =>
    match dl e a with
    | none => false
    | some p => ins p

/-- Embeds the `for app_name in apps_to_install` loop of
`CommandProcessor.run_full_installation` (src/app/logic.py:296-316).  `dl`
abstracts `_download_file` (returning the local file path or `None`) and
`ins` abstracts `_run_installer`; on success the app is removed from the
cart, and every failure case continues with the next app. -/
def installLoop (db : Database) (dl : AppEntry → String → Option String)
    (ins : String → Bool) : Finset String → List String → Finset String × Log
  | cart, [] => (cart, [])
  | cart, a :: rest =>
    match findAppUrl db a with
    | none =>
      ((installLoop db dl ins cart rest).1,
        ("\n--- Processing \x27" ++ a ++ "\x27 ---", "command")
          :: ("Could not find URL for \x27" ++ a ++ "\x27. Skipping.", "error")
          :: (installLoop db dl ins cart rest).2)
    | some e =>
      match dl e a with
      | none =>
        ((installLoop db dl ins cart rest).1,
          ("\n--- Processing \x27" ++ a ++ "\x27 ---", "command")
            :: ("Failed to download \x27" ++ a ++ "\x27. Skipping to the next app.", "error")
            :: (installLoop db dl ins cart rest).2)
      | some p =>
        if ins p then
          ((installLoop db dl ins (cart.erase a) rest).1,
            ("\n--- Processing \x27" ++ a ++ "\x27 ---", "command")
              :: ("✅ Installation of \x27" ++ a ++ "\x27 completed successfully.", "success")
              :: (installLoop db dl ins (cart.erase a) rest).2)
        else
          ((installLoop db dl ins cart rest).1,
            ("\n--- Processing \x27" ++ a ++ "\x27 ---", "command")
              :: ("⚠️ Installation of \x27" ++ a ++ "\x27 was likely cancelled or failed.", "warning")
              :: (installLoop db dl ins cart rest).2)

/-- Embeds the final summary of `CommandProcessor.run_full_installation`
(src/app/logic.py:318-323). -/
def summaryLog (cart : Finset String) : Log :=
  ("\n--- All installation processes have finished. ---", "info") ::
    (if cart = ∅ then
      [("The shopping cart is now empty.", "success")]
    else
      ("Some applications remain in your cart:", "warning") :: showCart cart)

/-- Embeds `CommandProcessor.run_full_installation` (src/app/logic.py:287-323).
`snapshot` stands for `list(self.shopping_cart)`, the arbitrary but fixed
iteration order taken at pipeline start (it is duplicate-free and has the
cart membership).  The `os.makedirs` side effect carries no program state and
is omitted. -/
def runFullInstallation (db : Database) (dl : AppEntry → String → Option String)
    (ins : String → Bool) (cart : Finset String) (snapshot : List String) :
    Finset String × Log :=
  ((installLoop db dl ins cart snapshot).1,
    (installLoop db dl ins cart snapshot).2
      ++ summaryLog (installLoop db dl ins cart snapshot).1)

/-- Embeds the command-list selection of `CommandProcessor._run_installer`
(src/app/logic.py:399-405): a path whose lowercased form ends in `.msi` is
run through `msiexec /i`, anything else is executed directly. -/
def commandListFor (path : String) : List String :=
  if pyEndsWith (pyLower path) ".msi" then
    ["msiexec", "/i", path]
  else
    [path]

/-- Embeds `CommandProcessor._run_installer` (src/app/logic.py:391-413).
`exec` abstracts `subprocess.run(command_list, check=False)`: it yields the
child exit code, or an exception message.  The boolean result is
`process.returncode == 0`, and `False` on an exception. -/
def runInstaller (exec : List String → Except String Int) (path : String) :
    Bool × Log :=
  match exec (commandListFor path) with
  | Except.ok rc =>
    (rc == 0,
      [("Running installer: " ++ path, "command"),
       ("Please complete the setup process in the window that appears...", "info")])
  | Except.error e =>
    (false,
      [("Running installer: " ++ path, "command"),
       ("Please complete the setup process in the window that appears...", "info"),
       ("Failed to run installer: " ++ e, "error")])

/-- Embeds the dictionary emitted through `progress_emitter.progress`
(src/app/logic.py:365-371): percent, downloaded MB, total MB, speed MB/s,
eta seconds. -/
structure ProgressData where
  percent : Int
  downloaded : ℚ
  total : ℚ
  speed : ℚ
  eta : ℚ
deriving DecidableEq, Repr

/-- Embeds one observable emission of `CommandProcessor._download_file`:
signals of `progress_emitter` plus `log_emitter` lines. -/
inductive DlEvent where
  | started (appName : String)
  | progress (data : ProgressData)
  | finished
  | log (msg ty : String)
deriving DecidableEq, Repr

/-- Embeds the environment of one successful `requests.get` stream
(src/app/logic.py:337-353): the path component of the final response URL
`urlparse(r.url).path`, the optional `content-disposition` header, the parsed
`content-length` header, the body chunks of `r.iter_content` paired with the
`time.time()` value observed after each chunk is written, and the
`time.time()` value at `start_time`. -/
structure NetResponse where
  urlPath : String
  contentDisposition : Option String
  contentLength : Option Nat
  chunks : List (Nat × ℚ)
  startTime : ℚ

/-- Embeds Python `str.strip(chars)`: remove leading and trailing characters
belonging to `cs`. -/
def pyStrip (s : String) (cs : List Char) : String :=
  String.mk (((s.toList.dropWhile (fun c => cs.contains c)).reverse.dropWhile
    (fun c => cs.contains c)).reverse)

/-- Embeds `os.path.basename` applied to a URL path (src/app/logic.py:344):
the segment after the last path separator (`ntpath` splits on both slash and
backslash, character codes 47 and 92). -/
def basenameOf (p : String) : String :=
  String.mk ((p.toList.splitOnP (fun c => c == Char.ofNat 47 || c == Char.ofNat 92)).getLastD [])

/-- Embeds the filename derivation of `CommandProcessor._download_file`
(src/app/logic.py:341-344): the `content-disposition` header when present
(last `filename=` piece, stripped of quote characters, codes 39 and 34), else
the basename of the final URL path, else the synthesized fallback name. -/
def deriveFilename (r : NetResponse) (appName : String) : String :=
  match r.contentDisposition with
  | some v => pyStrip ((pySplitOn v "filename=").getLastD "") [Char.ofNat 39, Char.ofNat 34]
  | none =>
    if basenameOf r.urlPath = "" then appName ++ "_installer.tmp" else basenameOf r.urlPath

/-- Embeds the chunk loop of `CommandProcessor._download_file`
(src/app/logic.py:351-373): progress is emitted only when more than 0.2
seconds passed since the last emission AND `total_size > 0` AND the elapsed
time is positive; `last_update_time` advances only when an emission happens. -/
def dlLoop (totalSize : Nat) (startTime : ℚ) :
    ℚ → Nat → List (Nat × ℚ) → List DlEvent
  | _, _, [] => []
  | lastUpdate, downloaded, (len, t) :: rest =>
    if t - lastUpdate > 1/5 then
      if totalSize > 0 ∧ t - startTime > 0 then
        DlEvent.progress
          ⟨Rat.floor ((((downloaded + len : Nat) : ℚ) / (totalSize : ℚ)) * 100),
            ((downloaded + len : Nat) : ℚ) / (1024 * 1024),
            (totalSize : ℚ) / (1024 * 1024),
            (((downloaded + len : Nat) : ℚ) / (t - startTime)) / (1024 * 1024),
            if ((downloaded + len : Nat) : ℚ) / (t - startTime) > 0 then
              ((totalSize : ℚ) - ((downloaded + len : Nat) : ℚ))
                / (((downloaded + len : Nat) : ℚ) / (t - startTime))
            else 0⟩
          :: dlLoop totalSize startTime t (downloaded + len) rest
      else
        dlLoop totalSize startTime lastUpdate (downloaded + len) rest
    else
      dlLoop totalSize startTime lastUpdate (downloaded + len) rest

/-- Embeds `CommandProcessor._download_file` (src/app/logic.py:325-389).
The network interaction is an oracle: `Except.error e` stands for any raised
exception (carrying its message) before the body is streamed, `Except.ok r`
for a fully streamed response.  `total_size` is
`int(r.headers.get("content-length", 0))`; the `finally` block emits
`finished` and, when a path was produced and `total_size > 0`, one final
100-percent snapshot.  `os.path.join` is modelled with a fixed separator. -/
def downloadFile (net : Except String NetResponse) (folder appName : String) :
    Option String × List DlEvent :=
  match net with
  | Except.error e =>
    (none,
      [DlEvent.started appName,
       DlEvent.log ("Error during download: " ++ e) "error",
       DlEvent.finished])
  | Except.ok r =>
    (some (folder ++ "/" ++ deriveFilename r appName),
      DlEvent.started appName
        :: dlLoop (r.contentLength.getD 0) r.startTime r.startTime 0 r.chunks
        ++ [DlEvent.log ("Successfully downloaded to: " ++ (folder ++ "/" ++ deriveFilename r appName)) "success",
            DlEvent.finished]
        ++ (if r.contentLength.getD 0 > 0 then
              [DlEvent.progress
                ⟨100, ((r.contentLength.getD 0 : Nat) : ℚ) / (1024 * 1024),
                  ((r.contentLength.getD 0 : Nat) : ℚ) / (1024 * 1024), 0, 0⟩]
            else []))

/-- Recognizes `progress_emitter.progress` emissions. -/
def isProgressEvent : DlEvent → Bool
  | DlEvent.progress _ => true
  | _ => false

/-- Embeds `AVAILABLE_APPS` of `src/app/installer_garbage.py`, the bundled
offline catalog, verbatim. -/
def availableApps : Database :=
  [("Launcher Games",
    [("steam",
      ⟨some "https://cdn.akamai.steamstatic.com/client/installer/SteamSetup.exe",
       some "https://cdn.akamai.steamstatic.com/client/installer/SteamSetup.exe"⟩),
     ("epic_games",
      ⟨some "https://launcher-public-service-prod06.ol.epicgames.com/launcher/api/installer/download/EpicGamesLauncherInstaller.msi",
       some "https://launcher-public-service-prod06.ol.epicgames.com/launcher/api/installer/download/EpicGamesLauncherInstaller.msi"⟩),
     ("ubisoft_connect",
      ⟨some "https://ubi.li/4vxt9", some "https://ubi.li/4vxt9"⟩)]),
   ("Communication & Voice Chat",
    [("discord",
      ⟨some "https://discord.com/api/downloads/distributions/app/installers/latest?channel=stable&platform=win&arch=x64",
       some "https://discord.com/api/downloads/distributions/app/installers/latest?channel=stable&platform=win&arch=x86"⟩),
     ("teamspeak",
      ⟨some "https://files.teamspeak-services.com/pre_releases/client/6.0.0-beta2/teamspeak-client.msi",
       some "https://files.teamspeak-services.com/pre_releases/client/6.0.0-beta2/teamspeak-client.msi"⟩)]),
   ("Web Browsers",
    [("firefox",
      ⟨some "https://download.mozilla.org/?product=firefox-latest-ssl&os=win64&lang=id",
       some "https://download.mozilla.org/?product=firefox-latest-ssl&os=win&lang=id"⟩),
     ("chrome",
      ⟨some "https://dl.google.com/chrome/install/standalonesetup64.exe",
       some "https://dl.google.com/chrome/install/standalonesetup.exe"⟩)]),
   ("IDE & Code Editors",
    [("vscode",
      ⟨some "https://code.visualstudio.com/sha/download?build=stable&os=win32-x64-user",
       some "https://code.visualstudio.com/sha/download?build=stable&os=win32-user"⟩),
     ("sublime_text",
      ⟨some "https://download.sublimetext.com/sublime_text_build_4169_x64_setup.exe",
       some "https://download.sublimetext.com/sublime_text_build_4169_setup.exe"⟩)]),
   ("Media Players",
    [("vlc",
      ⟨some "https://get.videolan.org/vlc/last/win64/",
       some "https://get.videolan.org/vlc/last/win32/"⟩),
     ("kmplayer",
      ⟨some "https://update.kmplayer.com/player/download/kmp64",
       some "https://update.kmplayer.com/player/download/kmp"⟩)])]

/-- One cart-mutating call of the command surface: `add <names>` or
`remove <names>`. -/
inductive CartCall where
  | add (names : List String)
  | remove (names : List String)

/-- Applies one call through the embedded handlers of the source. -/
def applyCall (db : Database) (cart : Finset String) : CartCall → Finset String
  | CartCall.add names => (addToCart db cart names).1
  | CartCall.remove names => (removeFromCart cart names).1

/-- Runs a sequence of calls on the initially empty cart through the embedded
handlers of the source (`shopping_cart = set()` at startup,
src/app/logic.py:46). -/
def runCalls (db : Database) (calls : List CartCall) : Finset String :=
  calls.foldl (applyCall db) ∅

/-- Modelled from the spec: the set-theoretic effect of one `add` call,
inserting each name in order exactly when it occurs in the catalog. -/
def specAdd (db : Database) (cart : Finset String) (names : List String) :
    Finset String :=
  names.foldl (fun c n => if (findAppUrl db n).isSome then insert n c else c) cart

/-- Modelled from the spec: the set-theoretic effect of one `remove` call,
deleting each name in order (deleting an absent name changes nothing). -/
def specRemove (cart : Finset String) (names : List String) : Finset String :=
  names.foldl (fun c n => c.erase n) cart

/-- Modelled from the spec: one call as plain set insertion/deletion. -/
def specApplyCall (db : Database) (cart : Finset String) : CartCall → Finset String
  | CartCall.add names => specAdd db cart names
  | CartCall.remove names => specRemove cart names

/-- Modelled from the spec: a sequence of calls as set-theoretic folds from
the empty set. -/
def specRunCalls (db : Database) (calls : List CartCall) : Finset String :=
  calls.foldl (specApplyCall db) ∅

/-- The cart states reachable through the operations of the source: the empty
startup cart, `add_to_cart`, `remove_from_cart`, `clear_cart`, and a full
pipeline run with arbitrary oracles and snapshot order. -/
inductive ReachableCart (db : Database) : Finset String → Prop
  | init : ReachableCart db ∅
  | add (names : List String) {c : Finset String} :
      ReachableCart db c → ReachableCart db (addToCart db c names).1
  | remove (names : List String) {c : Finset String} :
      ReachableCart db c → ReachableCart db (removeFromCart c names).1
  | clearAll {c : Finset String} :
      ReachableCart db c → ReachableCart db (clearCart c).1
  | pipeline (dl : AppEntry → String → Option String) (ins : String → Bool)
      (snapshot : List String) {c : Finset String} :
      ReachableCart db c →
      ReachableCart db (runFullInstallation db dl ins c snapshot).1

theorem addLoop_fst (db : Database) :
    ∀ (names : List String) (cart : Finset String),
      (addLoop db cart names).1 = specAdd db cart names := by
  intro names
  induction names with
  | nil => intro cart; rfl
  | cons n rest ih =>
    intro cart
    by_cases h1 : (findAppUrl db n).isSome
    · by_cases h2 : n ∈ cart
      · have hins : insert n cart = cart := Finset.insert_eq_self.mpr h2
        simp [addLoop, specAdd, h1, h2, ih, List.foldl_cons, hins]
      · simp [addLoop, specAdd, h1, h2, ih, List.foldl_cons]
    · simp [addLoop, specAdd, h1, ih, List.foldl_cons]

theorem addToCart_fst (db : Database) (cart : Finset String) (names : List String) :
    (addToCart db cart names).1 = specAdd db cart names := by
  by_cases h : names = []
  · subst h; simp [addToCart, specAdd]
  · simp [addToCart, h, addLoop_fst]

theorem removeLoop_fst :
    ∀ (names : List String) (cart : Finset String),
      (removeLoop cart names).1 = specRemove cart names := by
  intro names
  induction names with
  | nil => intro cart; rfl
  | cons n rest ih =>
    intro cart
    by_cases h : n ∈ cart
    · simp [removeLoop, specRemove, h, ih, List.foldl_cons]
    · have he : cart.erase n = cart := Finset.erase_eq_self.mpr h
      simp [removeLoop, specRemove, h, ih, List.foldl_cons, he]

theorem removeFromCart_fst (cart : Finset String) (names : List String) :
    (removeFromCart cart names).1 = specRemove cart names := by
  by_cases h : names = []
  · subst h; simp [removeFromCart, specRemove]
  · simp [removeFromCart, h, removeLoop_fst]

theorem applyCall_eq (db : Database) (cart : Finset String) (call : CartCall) :
    applyCall db cart call = specApplyCall db cart call := by
  cases call with
  | add names => simp [applyCall, specApplyCall, addToCart_fst]
  | remove names => simp [applyCall, specApplyCall, removeFromCart_fst]

theorem runCalls_eq_aux (db : Database) :
    ∀ (calls : List CartCall) (c : Finset String),
      calls.foldl (applyCall db) c = calls.foldl (specApplyCall db) c := by
  intro calls
  induction calls with
  | nil => intro c; rfl
  | cons call rest ih =>
    intro c
    simp [List.foldl_cons, applyCall_eq, ih]

theorem addLoop_absent_logged (db : Database) :
    ∀ (names : List String) (cart : Finset String) (n : String),
      n ∈ names → findAppUrl db n = none →
      ("Error: Application \x27" ++ n ++ "\x27 was not found.", "error")
        ∈ (addLoop db cart names).2 := by
  intro names
  induction names with
  | nil => intro cart n h; exact absurd h (List.not_mem_nil n)
  | cons m rest ih =>
    intro cart n hmem hnone
    rcases List.mem_cons.mp hmem with h | h
    · subst h
      have h1 : ¬(findAppUrl db n).isSome := by simp [hnone]
      simp [addLoop, h1]
    · by_cases h1 : (findAppUrl db m).isSome
      · by_cases h2 : m ∈ cart
        · simp only [addLoop, h1, if_true, h2]
          exact List.mem_cons_of_mem _ (ih cart n h hnone)
        · simp only [addLoop, h1, if_true, h2, if_false]
          exact List.mem_cons_of_mem _ (ih (insert m cart) n h hnone)
      · simp only [addLoop, h1, if_false]
        exact List.mem_cons_of_mem _ (ih cart n h hnone)

theorem addLoop_present_logged (db : Database) :
    ∀ (names : List String) (cart : Finset String) (n : String),
      n ∈ names → (findAppUrl db n).isSome → n ∈ cart →
      ("\x27" ++ n ++ "\x27 is already in the cart.", "warning")
        ∈ (addLoop db cart names).2 := by
  intro names
  induction names with
  | nil => intro cart n h; exact absurd h (List.not_mem_nil n)
  | cons m rest ih =>
    intro cart n hmem hsome hcart
    rcases List.mem_cons.mp hmem with h | h
    · subst h
      simp [addLoop, hsome, hcart]
    · by_cases h1 : (findAppUrl db m).isSome
      · by_cases h2 : m ∈ cart
        · simp only [addLoop, h1, if_true, h2]
          exact List.mem_cons_of_mem _ (ih cart n h hsome hcart)
        · simp only [addLoop, h1, if_true, h2, if_false]
          exact List.mem_cons_of_mem _
            (ih (insert m cart) n h hsome (Finset.mem_insert_of_mem hcart))
      · simp only [addLoop, h1, if_false]
        exact List.mem_cons_of_mem _ (ih cart n h hsome hcart)

theorem removeLoop_absent_logged :
    ∀ (names : List String) (cart : Finset String) (n : String),
      n ∈ names → n ∉ cart →
      ("Error: \x27" ++ n ++ "\x27 is not in the cart.", "error")
        ∈ (removeLoop cart names).2 := by
  intro names
  induction names with
  | nil => intro cart n h; exact absurd h (List.not_mem_nil n)
  | cons m rest ih =>
    intro cart n hmem hnc
    rcases List.mem_cons.mp hmem with h | h
    · subst h
      simp [removeLoop, hnc]
    · by_cases h1 : m ∈ cart
      · simp only [removeLoop, h1, if_true]
        exact List.mem_cons_of_mem _
          (ih (cart.erase m) n h (fun hc => hnc (Finset.mem_of_mem_erase hc)))
      · simp only [removeLoop, h1, if_false]
        exact List.mem_cons_of_mem _ (ih cart n h hnc)

/-- C1: for every sequence of add and remove commands applied to an initially
empty cart, the final cart membership equals the set obtained by applying
each call in order as set insertion/deletion, where add inserts a name only
if it is present in the catalog (reporting a per-name error for absent names
and a warning for already-present names, while continuing with the remaining
names of the same call) and remove deletes a name only if it is currently in
the cart (reporting a per-name error otherwise without aborting the batch). -/
theorem c1_cart_set_semantics (db : Database) :
    (∀ calls : List CartCall, runCalls db calls = specRunCalls db calls)
    ∧ (∀ (cart : Finset String) (names : List String) (n : String),
        n ∈ names → findAppUrl db n = none →
        ("Error: Application \x27" ++ n ++ "\x27 was not found.", "error")
          ∈ (addToCart db cart names).2)
    ∧ (∀ (cart : Finset String) (names : List String) (n : String),
        n ∈ names → (findAppUrl db n).isSome → n ∈ cart →
        ("\x27" ++ n ++ "\x27 is already in the cart.", "warning")
          ∈ (addToCart db cart names).2)
    ∧ (∀ (cart : Finset String) (names : List String) (n : String),
        n ∈ names → n ∉ cart →
        ("Error: \x27" ++ n ++ "\x27 is not in the cart.", "error")
          ∈ (removeFromCart cart names).2) := by
  refine ⟨fun calls => runCalls_eq_aux db calls ∅, ?_, ?_, ?_⟩
  · intro cart names n hmem hnone
    have hne : names ≠ [] := by
      intro h; subst h; exact absurd hmem (List.not_mem_nil n)
    unfold addToCart
    rw [if_neg hne]
    exact List.mem_append_left _ (addLoop_absent_logged db names cart n hmem hnone)
  · intro cart names n hmem hsome hcart
    have hne : names ≠ [] := by
      intro h; subst h; exact absurd hmem (List.not_mem_nil n)
    unfold addToCart
    rw [if_neg hne]
    exact List.mem_append_left _ (addLoop_present_logged db names cart n hmem hsome hcart)
  · intro cart names n hmem hnc
    have hne : names ≠ [] := by
      intro h; subst h; exact absurd hmem (List.not_mem_nil n)
    unfold removeFromCart
    rw [if_neg hne]
    exact List.mem_append_left _ (removeLoop_absent_logged names cart n hmem hnc)

/-- Witness for C1 at concrete inputs over the bundled catalog. -/
theorem c1_cart_set_semantics_witness :
    runCalls availableApps
        [CartCall.add ["steam", "netflix"], CartCall.remove ["steam"]]
      = specRunCalls availableApps
        [CartCall.add ["steam", "netflix"], CartCall.remove ["steam"]]
    ∧ ("Error: Application \x27netflix\x27 was not found.", "error")
        ∈ (addToCart availableApps ∅ ["netflix"]).2
    ∧ ("\x27steam\x27 is already in the cart.", "warning")
        ∈ (addToCart availableApps {"steam"} ["steam"]).2
    ∧ ("Error: \x27vscode\x27 is not in the cart.", "error")
        ∈ (removeFromCart ∅ ["vscode"]).2 := by
  refine ⟨(c1_cart_set_semantics availableApps).1 _, ?_, ?_, ?_⟩
  · exact (c1_cart_set_semantics availableApps).2.1 ∅ ["netflix"] "netflix"
      (by simp) (by decide)
  · exact (c1_cart_set_semantics availableApps).2.2.1 {"steam"} ["steam"] "steam"
      (by simp) (by decide) (by simp)
  · exact (c1_cart_set_semantics availableApps).2.2.2 ∅ ["vscode"] "vscode"
      (by simp) (by simp)

/-- C2: the dispatcher is a two-state machine: `install` with a non-empty
cart moves Idle to AwaitingConfirmation, `install` with an empty cart warns
and stays Idle; while awaiting, every input (even text spelling a valid
command) is consumed as the confirmation answer, the state returns to Idle
unconditionally after that one answer, an answer case-insensitively equal to
`y` or `yes` launches the pipeline, and any other answer cancels with the
cart left exactly as it was. -/
theorem c2_confirmation_gate (db : Database) (cart : Finset String) (txt : String) :
    (cart ≠ ∅ →
      processCommand db ⟨cart, false⟩ "install"
        = (⟨cart, true⟩,
            ("The following applications will be installed:", "info") ::
              (cart.sort (· ≤ ·)).map (fun n => ("  - " ++ n, "info"))
              ++ [("\nDo you wish to continue? (y/n)", "user")],
            false))
    ∧ processCommand db ⟨∅, false⟩ "install"
        = (⟨∅, false⟩, [("Cart is empty. Nothing to install.", "warning")], false)
    ∧ processCommand db ⟨cart, true⟩ txt
        = (if pyLower txt = "y" ∨ pyLower txt = "yes" then
            (⟨cart, false⟩,
              [("Confirmation received. Starting download and installation process...", "success")],
              true)
          else
            (⟨cart, false⟩,
              ("Installation cancelled. Your cart remains unchanged.", "warning") :: showCart cart,
              false)) := by
  refine ⟨?_, ?_, ?_⟩
  · intro h
    show ((initiateInstallation cart).1, (initiateInstallation cart).2, false) = _
    rw [initiateInstallation, if_neg h]
  · show ((initiateInstallation (∅ : Finset String)).1,
      (initiateInstallation (∅ : Finset String)).2, false) = _
    rw [initiateInstallation, if_pos rfl]
  · rfl

/-- Witness for C2: a singleton cart enters the gate on `install`, and the
next input `show-apps` is consumed as a negative answer. -/
theorem c2_confirmation_gate_witness :
    processCommand availableApps ⟨{"steam"}, false⟩ "install"
      = (⟨{"steam"}, true⟩,
          ("The following applications will be installed:", "info") ::
            (({"steam"} : Finset String).sort (· ≤ ·)).map (fun n => ("  - " ++ n, "info"))
            ++ [("\nDo you wish to continue? (y/n)", "user")],
          false)
    ∧ processCommand availableApps ⟨{"steam"}, true⟩ "show-apps"
      = (⟨{"steam"}, false⟩,
          ("Installation cancelled. Your cart remains unchanged.", "warning")
            :: showCart {"steam"},
          false) := by
  constructor
  · exact (c2_confirmation_gate availableApps {"steam"} "show-apps").1 (by decide)
  · have h := (c2_confirmation_gate availableApps {"steam"} "show-apps").2.2
    rw [if_neg (by decide)] at h
    exact h

theorem installLoop_fst_cons (db : Database) (dl : AppEntry → String → Option String)
    (ins : String → Bool) (cart : Finset String) (a : String) (rest : List String) :
    (installLoop db dl ins cart (a :: rest)).1
      = (installLoop db dl ins
          (if installOK db dl ins a = true then cart.erase a else cart) rest).1 := by
  cases h1 : findAppUrl db a with
  | none => simp [installLoop, installOK, h1]
  | some e =>
    cases h2 : dl e a with
    | none => simp [installLoop, installOK, h1, h2]
    | some p =>
      by_cases h3 : ins p
      · simp [installLoop, installOK, h1, h2, h3]
      · simp [installLoop, installOK, h1, h2, h3]

theorem installLoop_fst_filter (db : Database) (dl : AppEntry → String → Option String)
    (ins : String → Bool) :
    ∀ (snap : List String) (cart : Finset String), snap.Nodup →
      (installLoop db dl ins cart snap).1
        = cart.filter (fun x => ¬(x ∈ snap ∧ installOK db dl ins x = true)) := by
  intro snap
  induction snap with
  | nil =>
    intro cart _
    simp [installLoop]
  | cons a rest ih =>
    intro cart hnd
    have hnd' := List.nodup_cons.mp hnd
    rw [installLoop_fst_cons, ih _ hnd'.2]
    by_cases hok : installOK db dl ins a = true
    · rw [if_pos hok]
      ext x
      simp only [Finset.mem_filter, Finset.mem_erase, List.mem_cons]
      by_cases hxa : x = a
      · subst hxa; tauto
      · tauto
    · rw [if_neg hok]
      ext x
      simp only [Finset.mem_filter, List.mem_cons]
      have hna : a ∉ rest := hnd'.1
      by_cases hxa : x = a
      · subst hxa; tauto
      · tauto

theorem installLoop_fst_subset (db : Database) (dl : AppEntry → String → Option String)
    (ins : String → Bool) :
    ∀ (snap : List String) (cart : Finset String),
      (installLoop db dl ins cart snap).1 ⊆ cart := by
  intro snap
  induction snap with
  | nil => intro cart; simp [installLoop]
  | cons a rest ih =>
    intro cart
    rw [installLoop_fst_cons]
    by_cases hok : installOK db dl ins a = true
    · rw [if_pos hok]
      exact (ih _).trans (Finset.erase_subset _ _)
    · rw [if_neg hok]
      exact ih _

/-- C3: the installation pipeline snapshots the cart membership at start and
processes each snapshotted app in turn; an app is removed from the cart
exactly when its URL resolves, its download succeeds and its installer
succeeds, and any failure leaves it in the cart while the remaining apps are
still processed — so one app's outcome never affects another's — and the log
ends with a single summary of the final cart state. -/
theorem c3_pipeline_isolation (db : Database) (dl : AppEntry → String → Option String)
    (ins : String → Bool) (cart : Finset String) (snapshot : List String)
    (h1 : snapshot.Nodup) (h2 : ∀ a, a ∈ snapshot ↔ a ∈ cart) :
    (∀ a, a ∈ (runFullInstallation db dl ins cart snapshot).1
        ↔ (a ∈ cart ∧ installOK db dl ins a = false))
    ∧ ∃ l, (runFullInstallation db dl ins cart snapshot).2
        = l ++ summaryLog (runFullInstallation db dl ins cart snapshot).1 := by
  constructor
  · intro a
    show a ∈ (installLoop db dl ins cart snapshot).1 ↔ _
    rw [installLoop_fst_filter db dl ins snapshot cart h1]
    simp only [Finset.mem_filter]
    constructor
    · rintro ⟨hc, hnp⟩
      refine ⟨hc, ?_⟩
      cases hok : installOK db dl ins a with
      | false => rfl
      | true => exact absurd ⟨(h2 a).mpr hc, hok⟩ hnp
    · rintro ⟨hc, hok⟩
      refine ⟨hc, ?_⟩
      rintro ⟨_, hok2⟩
      rw [hok] at hok2
      exact Bool.false_ne_true hok2
  · exact ⟨(installLoop db dl ins cart snapshot).2, rfl⟩

/-- Witness for C3: with `steam` and `vscode` in the cart, a download oracle
failing exactly for `steam` and an installer that succeeds, `steam` stays in
the cart and `vscode` is removed. -/
theorem c3_pipeline_isolation_witness :
    ("steam" ∈ (runFullInstallation availableApps
        (fun _ n => if n = "steam" then none else some "f.exe") (fun _ => true)
        {"steam", "vscode"} ["steam", "vscode"]).1
      ↔ ("steam" ∈ ({"steam", "vscode"} : Finset String)
          ∧ installOK availableApps
              (fun _ n => if n = "steam" then none else some "f.exe")
              (fun _ => true) "steam" = false))
    ∧ ("vscode" ∈ (runFullInstallation availableApps
        (fun _ n => if n = "steam" then none else some "f.exe") (fun _ => true)
        {"steam", "vscode"} ["steam", "vscode"]).1
      ↔ ("vscode" ∈ ({"steam", "vscode"} : Finset String)
          ∧ installOK availableApps
              (fun _ n => if n = "steam" then none else some "f.exe")
              (fun _ => true) "vscode" = false)) := by
  constructor
  · exact (c3_pipeline_isolation availableApps
      (fun _ n => if n = "steam" then none else some "f.exe") (fun _ => true)
      {"steam", "vscode"} ["steam", "vscode"] (by decide) (by intro a; simp)).1 "steam"
  · exact (c3_pipeline_isolation availableApps
      (fun _ n => if n = "steam" then none else some "f.exe") (fun _ => true)
      {"steam", "vscode"} ["steam", "vscode"] (by decide) (by intro a; simp)).1 "vscode"

/-- C4 concerns architecture-dependent URL selection; the source's
`_find_app_url` performs no such selection: it returns the whole
per-architecture entry (here for `discord`, whose two URLs differ), and this
entry — not a single architecture-appropriate URL — is what
`run_full_installation` then passes to `_download_file` as the URL. -/
theorem c4_find_app_url_returns_entry :
    findAppUrl availableApps "discord"
      = some ⟨some "https://discord.com/api/downloads/distributions/app/installers/latest?channel=stable&platform=win&arch=x64",
              some "https://discord.com/api/downloads/distributions/app/installers/latest?channel=stable&platform=win&arch=x86"⟩
    ∧ ("https://discord.com/api/downloads/distributions/app/installers/latest?channel=stable&platform=win&arch=x64"
        : String)
      ≠ "https://discord.com/api/downloads/distributions/app/installers/latest?channel=stable&platform=win&arch=x86" := by
  exact ⟨by decide, by decide⟩

/-- C5: running an installer returns success iff the child exit code is zero;
a path whose lowercased name ends in `.msi` is invoked through `msiexec /i`,
every other path is executed directly as the command itself. -/
theorem c5_run_installer (exec : List String → Except String Int) (path : String) :
    (pyEndsWith (pyLower path) ".msi" = true →
        commandListFor path = ["msiexec", "/i", path])
    ∧ (pyEndsWith (pyLower path) ".msi" = false →
        commandListFor path = [path])
    ∧ ((runInstaller exec path).1 = true ↔ exec (commandListFor path) = Except.ok 0) := by
  refine ⟨?_, ?_, ?_⟩
  · intro h
    simp [commandListFor, h]
  · intro h
    simp [commandListFor, h]
  · cases hx : exec (commandListFor path) with
    | ok rc => simp [runInstaller, hx]
    | error e => simp [runInstaller, hx]

/-- Witness for C5 at concrete paths and a child that exits 0. -/
theorem c5_run_installer_witness :
    commandListFor "Setup.MSI" = ["msiexec", "/i", "Setup.MSI"]
    ∧ commandListFor "setup.exe" = ["setup.exe"]
    ∧ ((runInstaller (fun _ => (Except.ok 0 : Except String Int)) "setup.exe").1 = true
        ↔ (fun _ => (Except.ok 0 : Except String Int)) (commandListFor "setup.exe")
            = Except.ok 0) := by
  refine ⟨?_, ?_, ?_⟩
  · exact (c5_run_installer (fun _ => (Except.ok 0 : Except String Int)) "Setup.MSI").1
      (by decide)
  · exact (c5_run_installer (fun _ => (Except.ok 0 : Except String Int)) "setup.exe").2.1
      (by decide)
  · exact (c5_run_installer (fun _ => (Except.ok 0 : Except String Int)) "setup.exe").2.2

/-- C6: the downloaded file's name is derived from the content-disposition
header when present, else from the last path segment of the final URL, else
as the synthesized fallback built from the application name. -/
theorem c6_filename_priority (r : NetResponse) (folder appName : String) :
    (∀ v, r.contentDisposition = some v →
        (downloadFile (Except.ok r) folder appName).1
          = some (folder ++ "/" ++ pyStrip ((pySplitOn v "filename=").getLastD "")
              [Char.ofNat 39, Char.ofNat 34]))
    ∧ (r.contentDisposition = none → basenameOf r.urlPath ≠ "" →
        (downloadFile (Except.ok r) folder appName).1
          = some (folder ++ "/" ++ basenameOf r.urlPath))
    ∧ (r.contentDisposition = none → basenameOf r.urlPath = "" →
        (downloadFile (Except.ok r) folder appName).1
          = some (folder ++ "/" ++ (appName ++ "_installer.tmp"))) := by
  refine ⟨?_, ?_, ?_⟩
  · intro v hv
    simp [downloadFile, deriveFilename, hv]
  · intro hn hb
    simp [downloadFile, deriveFilename, hn, hb]
  · intro hn hb
    simp [downloadFile, deriveFilename, hn, hb]

/-- Environment with a content-disposition header carrying a filename. -/
def netCd : NetResponse :=
  ⟨"/download", some "attachment; filename=\"steam.exe\"", some 1000, [], 0⟩

/-- Environment without content-disposition but a filename-bearing URL path. -/
def netUrl : NetResponse :=
  ⟨"/client/installer/SteamSetup.exe", none, none, [], 0⟩

/-- Environment whose final URL path ends in a separator. -/
def netBare : NetResponse :=
  ⟨"/vlc/last/win64/", none, none, [], 0⟩

/-- Witness for C6: the three priority cases at concrete responses. -/
theorem c6_filename_priority_witness :
    (downloadFile (Except.ok netCd) "installer_downloads" "steam").1
      = some ("installer_downloads" ++ "/"
          ++ pyStrip ((pySplitOn "attachment; filename=\"steam.exe\"" "filename=").getLastD "")
              [Char.ofNat 39, Char.ofNat 34])
    ∧ (downloadFile (Except.ok netUrl) "installer_downloads" "steam").1
      = some ("installer_downloads" ++ "/" ++ basenameOf netUrl.urlPath)
    ∧ (downloadFile (Except.ok netBare) "installer_downloads" "vlc").1
      = some ("installer_downloads" ++ "/" ++ ("vlc" ++ "_installer.tmp")) := by
  refine ⟨?_, ?_, ?_⟩
  · exact (c6_filename_priority netCd "installer_downloads" "steam").1 _ rfl
  · exact (c6_filename_priority netUrl "installer_downloads" "steam").2.1 rfl (by decide)
  · exact (c6_filename_priority netBare "installer_downloads" "vlc").2.2 rfl (by decide)

theorem dlLoop_zero_total (startTime : ℚ) :
    ∀ (chunks : List (Nat × ℚ)) (lastUpdate : ℚ) (downloaded : Nat),
      dlLoop 0 startTime lastUpdate downloaded chunks = [] := by
  intro chunks
  induction chunks with
  | nil => intro l d; rfl
  | cons c rest ih =>
    intro l d
    obtain ⟨len, t⟩ := c
    by_cases h : t - l > 1/5
    · simp [dlLoop, h, ih]
    · simp [dlLoop, h, ih]

/-- Environment with no content-length header and two chunks spaced well
beyond the 0.2 second throttle. -/
def netNoLen : NetResponse :=
  ⟨"/SteamSetup.exe", none, none, [(8192, 1), (8192, 2)], 0⟩

/-- Counterexample to C7 as stated: a successful download without a
content-length header, whose chunks arrive more than 0.2 seconds apart,
emits no progress snapshot at all (the code guards every progress emission
with `total_size > 0`), while the claim requires snapshots reporting bytes
and speed. -/
theorem c7_counterexample :
    netNoLen.contentLength = none
    ∧ (1 : ℚ) - 0 > 1/5
    ∧ (downloadFile (Except.ok netNoLen) "installer_downloads" "steam").2.filter
        isProgressEvent = []
    ∧ (downloadFile (Except.ok netNoLen) "installer_downloads" "steam").1
        = some "installer_downloads/SteamSetup.exe" := by
  refine ⟨rfl, by norm_num, ?_, ?_⟩
  · simp [downloadFile, netNoLen, dlLoop_zero_total, isProgressEvent]
  · rfl

/-- C7 amended: when the content-length header is absent the downloader
emits no progress snapshots at all — neither periodic ones nor the final
100-percent snapshot — only the start and terminal events and log lines. -/
theorem c7_no_progress_without_length (r : NetResponse) (folder appName : String)
    (h : r.contentLength = none) :
    (downloadFile (Except.ok r) folder appName).2.filter isProgressEvent = [] := by
  simp [downloadFile, h, dlLoop_zero_total, isProgressEvent]

/-- Witness for the amended C7 at the concrete header-free response. -/
theorem c7_no_progress_without_length_witness :
    (downloadFile (Except.ok netNoLen) "installer_downloads" "steam").2.filter
        isProgressEvent = [] :=
  c7_no_progress_without_length netNoLen "installer_downloads" "steam" rfl

/-- C8 concerns the documented command surface.  The nine commands present in
the dispatcher's command map are each routed to their handler, but `sys-info`
and `show-sys-info` — although documented — fall through to the
unrecognized-command error. -/
theorem c8_command_surface :
    processCommand availableApps ⟨∅, false⟩ "show-apps"
      = (⟨∅, false⟩, showAvailableApps availableApps, false)
    ∧ processCommand availableApps ⟨∅, false⟩ "add"
      = (⟨∅, false⟩, [("Error: Please specify an app name. Example: add steam vscode", "error")], false)
    ∧ processCommand availableApps ⟨∅, false⟩ "remove"
      = (⟨∅, false⟩, [("Error: Please specify the app name to remove.", "error")], false)
    ∧ processCommand availableApps ⟨∅, false⟩ "remove-all"
      = (⟨∅, false⟩, [("The cart is already empty.", "warning")], false)
    ∧ processCommand availableApps ⟨∅, false⟩ "cart"
      = (⟨∅, false⟩, [("Your shopping cart is currently empty.", "info")], false)
    ∧ processCommand availableApps ⟨∅, false⟩ "install"
      = (⟨∅, false⟩, [("Cart is empty. Nothing to install.", "warning")], false)
    ∧ processCommand availableApps ⟨∅, false⟩ "help"
      = (⟨∅, false⟩, [(helpText, "info")], false)
    ∧ processCommand availableApps ⟨∅, false⟩ "clear"
      = (⟨∅, false⟩, [("clear_screen", "system_command")], false)
    ∧ processCommand availableApps ⟨∅, false⟩ "restart"
      = (⟨∅, false⟩, [("restart_app", "system_command")], false)
    ∧ processCommand availableApps ⟨∅, false⟩ "sys-info"
      = (⟨∅, false⟩,
          [("Error: Command \x27sys-info\x27 not recognized. Type \x27help\x27 for assistance.", "error")],
          false)
    ∧ processCommand availableApps ⟨∅, false⟩ "show-sys-info"
      = (⟨∅, false⟩,
          [("Error: Command \x27show-sys-info\x27 not recognized. Type \x27help\x27 for assistance.", "error")],
          false) := by
  exact ⟨rfl, rfl, rfl, rfl, rfl, rfl, rfl, rfl, rfl, rfl, rfl⟩

/-- C9: `remove-all` on an already-empty cart reports that it is already
empty and leaves it empty, and running `remove-all` twice yields the same
cart as running it once. -/
theorem c9_remove_all_idempotent :
    (clearCart (∅ : Finset String)).1 = ∅
    ∧ (clearCart (∅ : Finset String)).2 = [("The cart is already empty.", "warning")]
    ∧ ∀ cart : Finset String, (clearCart (clearCart cart).1).1 = (clearCart cart).1 := by
  refine ⟨rfl, rfl, ?_⟩
  intro cart
  by_cases h : cart = ∅
  · subst h; rfl
  · simp [clearCart, h]

theorem specAdd_mem_catalog (db : Database) :
    ∀ (names : List String) (cart : Finset String) (n : String),
      n ∈ specAdd db cart names → n ∈ cart ∨ (findAppUrl db n).isSome = true := by
  intro names
  induction names with
  | nil => intro cart n hn; exact Or.inl hn
  | cons m rest ih =>
    intro cart n hn
    by_cases h1 : (findAppUrl db m).isSome
    · have hn' : n ∈ specAdd db (insert m cart) rest := by
        simpa [specAdd, h1] using hn
      rcases ih (insert m cart) n hn' with h2 | h2
      · rcases Finset.mem_insert.mp h2 with h3 | h3
        · subst h3; exact Or.inr h1
        · exact Or.inl h3
      · exact Or.inr h2
    · have hn' : n ∈ specAdd db cart rest := by
        simpa [specAdd, h1] using hn
      exact ih cart n hn'

theorem specRemove_subset :
    ∀ (names : List String) (cart : Finset String),
      specRemove cart names ⊆ cart := by
  intro names
  induction names with
  | nil => intro cart; exact Finset.Subset.refl cart
  | cons m rest ih =>
    intro cart
    exact (ih (cart.erase m)).trans (Finset.erase_subset m cart)

theorem clearCart_fst_subset (cart : Finset String) : (clearCart cart).1 ⊆ cart := by
  by_cases h : cart = ∅
  · simp [clearCart, h]
  · simp [clearCart, h]

/-- C10: every identifier in any reachable cart state is a key of the loaded
catalog — add inserts a name only after it resolves in the catalog, while
remove, remove-all and the pipeline's removal-on-success only delete
elements, so every reachable cart is a subset of the catalog's application
identifiers. -/
theorem c10_cart_subset_catalog (db : Database) (c : Finset String)
    (h : ReachableCart db c) : ∀ n ∈ c, (findAppUrl db n).isSome = true := by
  induction h with
  | init =>
    intro n hn
    exact absurd hn (Finset.not_mem_empty n)
  | add names h' ih =>
    intro n hn
    rw [addToCart_fst] at hn
    rcases specAdd_mem_catalog db names _ n hn with h1 | h1
    · exact ih n h1
    · exact h1
  | remove names h' ih =>
    intro n hn
    rw [removeFromCart_fst] at hn
    exact ih n (specRemove_subset names _ hn)
  | clearAll h' ih =>
    intro n hn
    exact ih n (clearCart_fst_subset _ hn)
  | pipeline dl ins snapshot h' ih =>
    intro n hn
    exact ih n (installLoop_fst_subset db dl ins snapshot _ hn)

/-- Witness for C10: the cart reached by `add steam` from startup contains
only catalog keys. -/
theorem c10_cart_subset_catalog_witness :
    (findAppUrl availableApps "steam").isSome = true := by
  have h : ReachableCart availableApps (addToCart availableApps ∅ ["steam"]).1 :=
    ReachableCart.add ["steam"] ReachableCart.init
  exact c10_cart_subset_catalog availableApps _ h "steam" (by decide)
